import Mathlib

/-!
Verification of the multimodal RAG retrieval and context-assembly pipeline.

The development shallowly embeds the Python source of the repository:
Python strings are modelled as `List Char`, Python floats as exact
rationals (`ℚ`), Python dicts with a fixed key set as structures, and
fallible calls to external collaborators as `Except`-valued functions.
Each embedded definition carries the name of the source function it
translates (from app/core/text_processor.py, app/core/retriever.py,
app/core/llm.py, app/core/embedder.py and app/db/vector_store.py).
-/

set_option maxRecDepth 4000

namespace RagPipeline

/-- A Python string: a sequence of characters. -/
abbrev PyStr := List Char

/-- The paragraph separator used throughout `text_processor.chunk_text`:
the two-character string of a double newline. -/
def sep2 : PyStr := ['\n', '\n']

/-- Python str.strip with no arguments: remove leading and trailing
whitespace characters. -/
def pyStrip (s : PyStr) : PyStr :=
  ((s.dropWhile Char.isWhitespace).reverse.dropWhile Char.isWhitespace).reverse

/-- Python str.lower, restricted to ASCII case folding. -/
def pyLower (s : PyStr) : PyStr := s.map Char.toLower

/-- Auxiliary scanner for Python str.split("\n\n"): leftmost
non-overlapping split on a double newline; the accumulator holds the
current piece reversed. -/
def splitNNAux : PyStr → PyStr → List PyStr
  | [], acc => [acc.reverse]
  | [c], acc => [(c :: acc).reverse]
  | c1 :: c2 :: rest, acc =>
      if c1 = '\n' ∧ c2 = '\n' then acc.reverse :: splitNNAux rest []
      else splitNNAux (c2 :: rest) (c1 :: acc)

/-- Python text.split("\n\n") as used in chunk_text. -/
def splitNN (s : PyStr) : List PyStr := splitNNAux s []

/-- Auxiliary scanner for Python str.split() with no arguments: split on
runs of whitespace, discarding empty pieces. -/
def splitWsAux : PyStr → PyStr → List PyStr
  | [], acc => if acc = [] then [] else [acc.reverse]
  | c :: rest, acc =>
      if c.isWhitespace then
        if acc = [] then splitWsAux rest []
        else acc.reverse :: splitWsAux rest []
      else splitWsAux rest (c :: acc)

/-- Python current_chunk.split() (whitespace split, no empty pieces). -/
def pySplitWs (s : PyStr) : List PyStr := splitWsAux s []

/-- Python sep.join(pieces). -/
def pyJoin (sep : PyStr) (pieces : List PyStr) : PyStr :=
  List.intercalate sep pieces

/-- app/config.py: TEXT_CHUNK_SIZE = 1000. -/
def TEXT_CHUNK_SIZE : Nat := 1000

/-- app/config.py: TEXT_CHUNK_OVERLAP = 200. -/
def TEXT_CHUNK_OVERLAP : Nat := 200

/-- The stripped, non-empty paragraphs of the input text, as computed at
the head of text_processor.chunk_text:
paragraphs = [p.strip() for p in text.split("\n\n") if p.strip()]. -/
def paragraphsOf (text : PyStr) : List PyStr :=
  ((splitNN text).map pyStrip).filter (fun p => p ≠ [])

/-- One iteration of the paragraph loop of text_processor.chunk_text.
The state is (chunks so far, current_chunk).  When appending the next
paragraph would push len(current_chunk) + len(paragraph) over
TEXT_CHUNK_SIZE and current_chunk is non-empty, the current chunk is
closed (stripped) and the new chunk is seeded with the last
TEXT_CHUNK_OVERLAP / 10 words of the closed chunk; otherwise the
paragraph is appended after a double newline (or starts the chunk). -/
def overlapSeed (current : PyStr) : PyStr :=
  pyJoin [' '] ((pySplitWs current).drop
    ((pySplitWs current).length -
      min (pySplitWs current).length (TEXT_CHUNK_OVERLAP / 10)))

def chunkStep (acc : List PyStr × PyStr) (paragraph : PyStr) :
    List PyStr × PyStr :=
  if TEXT_CHUNK_SIZE < acc.2.length + paragraph.length ∧ acc.2 ≠ [] then
    (acc.1 ++ [pyStrip acc.2], overlapSeed acc.2 ++ sep2 ++ paragraph)
  else
    (acc.1, if acc.2 = [] then paragraph else acc.2 ++ sep2 ++ paragraph)

/-- text_processor.chunk_text: split the text into paragraphs on double
newlines, then greedily accumulate paragraphs into chunks bounded by
TEXT_CHUNK_SIZE, seeding each new chunk with trailing words of the
previous one; the final non-empty current chunk is appended stripped. -/
def chunk_text (text : PyStr) : List PyStr :=
  if text = [] then []
  else
    let acc := (paragraphsOf text).foldl chunkStep ([], [])
    if acc.2 = [] then acc.1 else acc.1 ++ [pyStrip acc.2]

/-- The shape every chunk emitted by chunk_text has: it fits in
TEXT_CHUNK_SIZE plus the two characters of one paragraph separator, or
it is (the stripped form of) a single oversized paragraph, or it is (the
stripped form of) an overlap seed joined by one separator to a single
paragraph. -/
def GoodChunk (paras : List PyStr) (c : PyStr) : Prop :=
  c.length ≤ TEXT_CHUNK_SIZE + 2
  ∨ (∃ p ∈ paras, c = pyStrip p)
  ∨ (∃ s p, p ∈ paras ∧ c = pyStrip (s ++ sep2 ++ p))

/-- Invariant for the running current_chunk of the paragraph loop. -/
def GoodCur (paras : List PyStr) (cur : PyStr) : Prop :=
  cur = []
  ∨ cur.length ≤ TEXT_CHUNK_SIZE + 2
  ∨ (∃ p ∈ paras, cur = p)
  ∨ (∃ s p, p ∈ paras ∧ cur = s ++ sep2 ++ p)

/-- Concrete input for the C3 counterexample: two 500-character
paragraphs separated by a double newline. -/
def exC3 : PyStr := List.replicate 500 'a' ++ sep2 ++ List.replicate 500 'b'

variable {α β : Type _}

/-- Stable insertion into a list sorted by the boolean relation le:
the new element goes in front of the first element it compares
less-or-equal to, so the result of sorting agrees with Python's stable
list.sort. -/
def insertSorted (le : α → α → Bool) (x : α) : List α → List α
  | [] => [x]
  | y :: ys => if le x y then x :: y :: ys else y :: insertSorted le x ys

/-- Stable sort by a boolean relation, modelling Python list.sort with a
key function (stable, ascending in the relation). -/
def pySortBy (le : α → α → Bool) : List α → List α
  | [] => []
  | x :: xs => insertSorted le x (pySortBy le xs)

/-- A boolean relation that is total. -/
def IsTotalBle (le : α → α → Bool) : Prop :=
  ∀ a b, le a b = true ∨ le b a = true

/-- A boolean relation that is transitive. -/
def IsTransBle (le : α → α → Bool) : Prop :=
  ∀ a b c, le a b = true → le b c = true → le a c = true

/-- A character matched by the regex class backslash-w, restricted to
ASCII: letters, digits and the underscore. -/
def isWordChar (c : Char) : Bool := c.isAlphanum || c = '_'

/-- Scanner computing the maximal runs of word characters of a string;
the accumulator holds the current run reversed. -/
def wordRunsAux : PyStr → PyStr → List PyStr
  | [], acc => if acc = [] then [] else [acc.reverse]
  | c :: rest, acc =>
      if isWordChar c then wordRunsAux rest (c :: acc)
      else if acc = [] then wordRunsAux rest []
      else acc.reverse :: wordRunsAux rest []

/-- The maximal word-character runs of a string. -/
def wordRuns (s : PyStr) : List PyStr := wordRunsAux s []

/-- retriever.hybrid_search keyword extraction:
re.findall of the pattern matching word runs of length at least 4 inside
word boundaries, applied to query.lower().  A match of that pattern is
exactly a maximal word-character run of length at least 4. -/
def pyKeywords (query : PyStr) : List PyStr :=
  (wordRuns (pyLower query)).filter (fun k => 4 ≤ k.length)

/-- Python needle in hay: contiguous-substring test. -/
def isSubstring (needle : PyStr) : PyStr → Bool
  | [] => needle.isEmpty
  | c :: rest => needle.isPrefixOf (c :: rest) || isSubstring needle rest

/-- retriever.hybrid_search match counting:
keyword_matches = sum(1 for keyword in keywords if keyword in content),
the number of keywords occurring at least once in the content. -/
def keywordMatches (kws : List PyStr) (content : PyStr) : Nat :=
  (kws.filter (fun k => isSubstring k content)).length

/-- A search result as enhanced by retriever.retrieve_context: the dict
handed to hybrid_search, build_context_for_llm and extract_citations.
Confidences are Python floats, modelled as exact rationals. -/
structure SearchResult where
  chunk_id : PyStr
  document_id : Option PyStr
  document_name : PyStr
  chunk_type : PyStr
  content : PyStr
  page_number : Option Int
  confidence : ℚ
  image_path : Option PyStr
  language : Option PyStr
deriving DecidableEq

/-- The per-result confidence adjustment of retriever.hybrid_search:
with at least one keyword match, confidence becomes
min(0.99, confidence + min(0.2, 0.05 * keyword_matches)). -/
def boostResult (kws : List PyStr) (r : SearchResult) : SearchResult :=
  if 0 < keywordMatches kws (pyLower r.content) then
    { r with
      confidence := min (99/100) (r.confidence +
        min (2/10) (5/100 * (keywordMatches kws (pyLower r.content) : ℚ))) }
  else r

/-- The comparison of the final re-sort of retriever.hybrid_search:
vector_results.sort(key=confidence, reverse=True), a stable descending
sort on confidence. -/
def confDescLE (a b : SearchResult) : Bool := decide (b.confidence ≤ a.confidence)

/-- retriever.hybrid_search: extract keywords from the lowered query; if
none qualify, return the results unmodified, otherwise boost each
result's confidence by its keyword matches and re-sort by descending
confidence. -/
def hybrid_search (query : PyStr) (vector_results : List SearchResult) :
    List SearchResult :=
  if pyKeywords query = [] then vector_results
  else pySortBy confDescLE (vector_results.map (boostResult (pyKeywords query)))

/-- vector_store.search_vectors distance-to-confidence mapping:
confidence = 1.0 - min(distance / 2.0, 0.95). -/
def confidence_of_distance (distance : ℚ) : ℚ :=
  1 - min (distance / 2) (95/100)

/-- Python hay.count(needle) (non-overlapping occurrence count), with
fuel for structural termination; the fuel is the length of the haystack,
which one iteration always consumes at least one character of.  (Only
used with non-empty needles.) -/
def pyCountFuel (needle : PyStr) : Nat → PyStr → Nat
  | 0, _ => 0
  | _ + 1, [] => 0
  | fuel + 1, c :: rest =>
      if needle.isPrefixOf (c :: rest) then
        1 + pyCountFuel needle fuel ((c :: rest).drop needle.length)
      else pyCountFuel needle fuel rest

/-- Python hay.count(needle) for non-empty needles. -/
def pyCount (needle hay : PyStr) : Nat := pyCountFuel needle hay.length hay

/-- Modelled from the words of claim C1, for comparison with the code:
the total count of case-folded substring occurrences of each query
keyword within the chunk's content. -/
def specC1MatchCount (query content : PyStr) : Nat :=
  ((pyKeywords query).map (fun k => pyCount k (pyLower content))).sum

/-- Modelled from the words of claim C8, for comparison with the code:
the whitespace-delimited tokens of the case-folded query of length at
least 4 characters. -/
def specC8Keywords (query : PyStr) : List PyStr :=
  (pySplitWs (pyLower query)).filter (fun t => 4 ≤ t.length)

/-- Concrete result for the C1 counterexample: the content contains the
query keyword three times. -/
def exResC1 : SearchResult :=
  { chunk_id := "r1".data
    document_id := some "doc1".data
    document_name := "Doc One".data
    chunk_type := "text".data
    content := "wolf wolf wolf".data
    page_number := none
    confidence := 1/2
    image_path := none
    language := none }

/-- Concrete result for the C2 counterexample: confidence 1.0, which is
what search_vectors assigns at vector distance 0. -/
def exResC2 : SearchResult :=
  { chunk_id := "r2".data
    document_id := some "doc2".data
    document_name := "Doc Two".data
    chunk_type := "text".data
    content := "hello".data
    page_number := none
    confidence := 1
    image_path := none
    language := none }

/-- Python string comparison (code-point lexicographic, as a
less-or-equal test). -/
def charsLE : PyStr → PyStr → Bool
  | [], _ => true
  | _ :: _, [] => false
  | a :: as, b :: bs =>
      if a.toNat < b.toNat then true
      else if b.toNat < a.toNat then false
      else charsLE as bs

/-- The page component of the group sort key of build_context_for_llm:
x.get("page_number") or 9999 — Python or replaces both None and 0 by
the sentinel 9999. -/
def pageKey (r : SearchResult) : Int :=
  match r.page_number with
  | none => 9999
  | some n => if n = 0 then 9999 else n

/-- The group sort comparison of build_context_for_llm:
key=lambda x: (page_number or 9999, chunk_id), compared
lexicographically as Python compares tuples. -/
def groupKeyLE (a b : SearchResult) : Bool :=
  if pageKey a < pageKey b then true
  else if pageKey b < pageKey a then false
  else charsLE a.chunk_id b.chunk_id

/-- Python truthiness of the document id: None and the empty string are
falsy, and group_results_by_document skips results with falsy ids. -/
def docKeyOf (r : SearchResult) : Option PyStr :=
  match r.document_id with
  | none => none
  | some [] => none
  | some k => some k

/-- Insertion into an insertion-ordered association list of groups,
modelling the ordered dict built by defaultdict(list). -/
def insertGroup (k : PyStr) (r : SearchResult) :
    List (PyStr × List SearchResult) → List (PyStr × List SearchResult)
  | [] => [(k, [r])]
  | (k0, g) :: rest =>
      if k0 = k then (k0, g ++ [r]) :: rest
      else (k0, g) :: insertGroup k r rest

/-- retriever.group_results_by_document: group results by document id in
first-occurrence order, skipping results with a falsy document id. -/
def group_results_by_document (results : List SearchResult) :
    List (PyStr × List SearchResult) :=
  results.foldl (fun acc r =>
    match docKeyOf r with
    | none => acc
    | some k => insertGroup k r acc) []

/-- The document groups of build_context_for_llm with each group's list
sorted by (page_number or 9999, chunk_id). -/
def contextGroups (results : List SearchResult) :
    List (PyStr × List SearchResult) :=
  (group_results_by_document results).map
    (fun kg => (kg.1, pySortBy groupKeyLE kg.2))

/-- The page annotation of build_context_for_llm:
f" (Page {page})" if page else "" — empty both for a missing page
number and for page 0 (falsy). -/
def pageInfo (p : Option Int) : PyStr :=
  match p with
  | none => []
  | some n =>
      if n = 0 then []
      else " (Page ".data ++ (toString n).data ++ ")".data

/-- One formatted block of build_context_for_llm, by chunk type; chunk
types other than text, image and code append no block at all. -/
def renderBlockOpt (r : SearchResult) : Option PyStr :=
  if r.chunk_type = "text".data then
    some ("Text".data ++ pageInfo r.page_number ++ ":\n".data ++
      r.content ++ "\n".data)
  else if r.chunk_type = "image".data then
    (if r.content ≠ [] then
      some ("Image".data ++ pageInfo r.page_number ++ " text:\n".data ++
        r.content ++ "\n".data)
    else
      some ("Image".data ++ pageInfo r.page_number ++ ": [Image at ".data ++
        r.image_path.getD [] ++ "]\n".data))
  else if r.chunk_type = "code".data then
    some ("Code (".data ++ r.language.getD "unknown".data ++ "):\n".data ++
      r.content ++ "\n".data)
  else none

/-- The context parts contributed by one document group: the document
header (named from the group's first result in ranked order), one block
per chunk in sorted order, and a closing blank part. -/
def docGroupParts (kg : PyStr × List SearchResult) (acc : List PyStr) :
    List PyStr :=
  ("Document: ".data ++
      ((kg.2.head?.map (fun r => r.document_name)).getD
        "Unknown Document".data) ++ "\n".data) ::
    ((pySortBy groupKeyLE kg.2).filterMap renderBlockOpt ++
      ("\n".data :: acc))

/-- retriever.build_context_for_llm: the serialized context payload —
a query header, then per document group a document header followed by
the group's formatted blocks in (page, chunk id) order, all joined with
newlines; an empty result list yields the sentinel string. -/
def build_context_for_llm (results : List SearchResult) (query : PyStr) :
    PyStr :=
  if results = [] then "No relevant information found.".data
  else
    pyJoin "\n".data
      (("Query: ".data ++ query ++ "\n\n".data) ::
        (group_results_by_document results).foldr docGroupParts [])

/-- Replace an explicit page number 0 by an absent page number. -/
def normPage0 (r : SearchResult) : SearchResult :=
  if r.page_number = some 0 then { r with page_number := none } else r

/-- Modelled from the words of claim C5, for comparison with the code:
the claimed group ordering (page_number or +infinity, chunk_id), under
which every chunk without a page number sorts after every chunk with
one. -/
def specC5KeyLE (a b : SearchResult) : Bool :=
  match (if a.page_number = some 0 then none else a.page_number),
      (if b.page_number = some 0 then none else b.page_number) with
  | none, none => charsLE a.chunk_id b.chunk_id
  | none, some _ => false
  | some _, none => true
  | some m, some n =>
      if m < n then true
      else if n < m then false
      else charsLE a.chunk_id b.chunk_id

/-- Concrete result for C5: page number 10000, chunk id "a". -/
def exResA : SearchResult :=
  { chunk_id := "a".data
    document_id := some "d".data
    document_name := "D".data
    chunk_type := "text".data
    content := "x".data
    page_number := some 10000
    confidence := 1
    image_path := none
    language := none }

/-- Concrete result for C5: no page number, chunk id "b". -/
def exResB : SearchResult :=
  { exResA with chunk_id := "b".data, page_number := none }

/-- Concrete result for C10: page number 0. -/
def exResC10 : SearchResult :=
  { exResA with chunk_id := "c".data, page_number := some 0 }

/-- api/models.Citation: the citation payload built by
llm.extract_citations.  document_id is optional because the source dicts
may carry None. -/
structure Citation where
  document_id : Option PyStr
  document_name : PyStr
  text : PyStr
  image_url : Option PyStr
  page_number : Option Int
  confidence : ℚ
deriving DecidableEq

/-- The Citation built from one context item in llm.extract_citations
(both in the marker loop and in the fallback). -/
def mkCitation (item : SearchResult) : Citation :=
  { document_id := item.document_id
    document_name := item.document_name
    text := item.content
    image_url := if item.chunk_type = "image".data then item.image_path else none
    page_number := item.page_number
    confidence := item.confidence }

/-- Python int of a digit run. -/
def digitsToNat (ds : PyStr) : Nat :=
  ds.foldl (fun acc c => 10 * acc + (c.toNat - '0'.toNat)) 0

/-- Scanner for re.findall of the citation-marker pattern
[DOC_(digits)]: non-overlapping leftmost matches; after a match the scan
resumes past it, and after a failed partial match it advances one
character, as the regex engine does.  Structured on fuel, which each
step strictly consumes along with at least one input character. -/
def findMarkersFuel : Nat → PyStr → List Nat
  | 0, _ => []
  | fuel + 1, s =>
      match s with
      | '[' :: 'D' :: 'O' :: 'C' :: '_' :: rest =>
          (match rest.takeWhile Char.isDigit, rest.dropWhile Char.isDigit with
            | [], _ => findMarkersFuel fuel ('D' :: 'O' :: 'C' :: '_' :: rest)
            | ds, ']' :: rest2 => digitsToNat ds :: findMarkersFuel fuel rest2
            | _, _ => findMarkersFuel fuel ('D' :: 'O' :: 'C' :: '_' :: rest))
      | _ :: rest => findMarkersFuel fuel rest
      | [] => []

/-- The marker numbers found in the response by
re.findall(r..., response) for the [DOC_(digits)] pattern. -/
def findMarkers (response : PyStr) : List Nat :=
  findMarkersFuel response.length response

/-- Marker resolution of llm.extract_citations: doc_idx = int(i) - 1,
kept iff 0 <= doc_idx < len(context); the 1-indexed marker n resolves
to context[n - 1] exactly when 1 ≤ n ≤ len(context). -/
def resolveMarker (ctx : List SearchResult) (n : Nat) : Option SearchResult :=
  if 1 ≤ n then ctx.get? (n - 1) else none

/-- Append a citation unless one with the same (document_id, text) pair
is already present (the dedup check of extract_citations). -/
def addCitation (cs : List Citation) (c : Citation) : List Citation :=
  if cs.any (fun c0 => c0.document_id = c.document_id ∧ c0.text = c.text) then
    cs
  else cs ++ [c]

/-- One iteration of the marker loop of extract_citations. -/
def citeStep (ctx : List SearchResult) (cs : List Citation) (n : Nat) :
    List Citation :=
  match resolveMarker ctx n with
  | none => cs
  | some item => addCitation cs (mkCitation item)

/-- The citations resolved from a marker list, in first-seen order,
deduplicated by (document_id, text). -/
def citationsFromMarkers (ctx : List SearchResult) (ms : List Nat) :
    List Citation :=
  ms.foldl (citeStep ctx) []

/-- llm.extract_citations (citation component; the response string is
returned unchanged by the source): resolve the [DOC_i] markers of the
response against the context, and if none resolved and the context is
non-empty, fall back to a single citation of the top result. -/
def extract_citations (response : PyStr) (ctx : List SearchResult) :
    List Citation :=
  match citationsFromMarkers ctx (findMarkers response), ctx with
  | [], top :: _ => [mkCitation top]
  | cs, _ => cs

/-- The external collaborators of app/core/embedder.py: the text
embedding model's encode, the optional CLIP model, the file system and
the OCR extractor; each fallible one returns an exception or a vector. -/
structure EmbedEnv where
  textDim : Nat
  textEncode : PyStr → Except PyStr (List ℚ)
  hasClip : Bool
  clipEmbed : PyStr → Except PyStr (List ℚ)
  fileExists : PyStr → Bool
  ocr : PyStr → Except PyStr PyStr

/-- np.zeros(n): the zero vector of dimension n. -/
def zeros (n : Nat) : List ℚ := List.replicate n 0

/-- embedder.embed_text: empty text yields a zero vector of the model
dimension; otherwise the model's encode runs with no exception handler,
so a failure propagates to the caller. -/
def embed_text (env : EmbedEnv) (text : PyStr) : Except PyStr (List ℚ) :=
  if text = [] then .ok (zeros env.textDim) else env.textEncode text

/-- embedder.embed_image: a missing file yields a zero vector; otherwise
the CLIP path (or, without CLIP, the OCR + text-embedding path) runs
inside try/except and any failure degrades to a zero vector. -/
def embed_image (env : EmbedEnv) (image_path : PyStr) : Except PyStr (List ℚ) :=
  if env.fileExists image_path = false then .ok (zeros 512)
  else
    match
      (if env.hasClip then env.clipEmbed image_path
       else
         match env.ocr image_path with
         | .error e => .error e
         | .ok txt =>
             if txt ≠ [] then embed_text env txt
             else .ok (zeros env.textDim))
    with
    | .ok v => .ok v
    | .error _ => .ok (zeros (if env.hasClip then 512 else env.textDim))

/-- embedder.embed_code: an empty snippet yields a zero vector;
otherwise a composite header of language and function names is prepended
and the result goes through embed_text, again with no handler. -/
def embed_code (env : EmbedEnv) (snippet language : PyStr)
    (functions : List PyStr) : Except PyStr (List ℚ) :=
  if snippet = [] then .ok (zeros env.textDim)
  else
    embed_text env
      ("Language: ".data ++ language ++ "\n".data ++
        (if functions ≠ [] then
          "Functions: ".data ++ pyJoin ", ".data functions ++ "\n\n".data
        else []) ++ snippet)

/-- The chunk dict handed to embedder.embed_chunk. -/
structure Chunk where
  chunk_type : PyStr
  content : PyStr
  image_path : Option PyStr
  language : Option PyStr
deriving DecidableEq

/-- embedder.embed_chunk: dispatch on the chunk type — text and unknown
types go to the text strategy, images to embed_image, code to embed_code
with an empty function list. -/
def embed_chunk (env : EmbedEnv) (chunk : Chunk) : Except PyStr (List ℚ) :=
  if chunk.chunk_type = "text".data then embed_text env chunk.content
  else if chunk.chunk_type = "image".data then
    embed_image env (chunk.image_path.getD [])
  else if chunk.chunk_type = "code".data then
    embed_code env chunk.content (chunk.language.getD "unknown".data) []
  else embed_text env chunk.content

/-- An environment whose text embedding strategy always fails. -/
def badEnv : EmbedEnv :=
  { textDim := 3
    textEncode := fun _ => .error "encode failed".data
    hasClip := false
    clipEmbed := fun _ => .error "no clip".data
    fileExists := fun _ => false
    ocr := fun _ => .ok [] }

/-- A non-empty text chunk. -/
def exChunkText : Chunk :=
  { chunk_type := "text".data
    content := "hi".data
    image_path := none
    language := none }

/-- An image chunk. -/
def exChunkImage : Chunk :=
  { chunk_type := "image".data
    content := []
    image_path := some "img.png".data
    language := none }

/-- A text chunk with empty content. -/
def exChunkEmpty : Chunk :=
  { chunk_type := "text".data
    content := []
    image_path := none
    language := none }

theorem pyStrip_length_le (s : PyStr) : (pyStrip s).length ≤ s.length := by
  have h1 : (s.dropWhile Char.isWhitespace).length ≤ s.length :=
    (List.dropWhile_sublist Char.isWhitespace).length_le
  have h2 : ((s.dropWhile Char.isWhitespace).reverse.dropWhile
        Char.isWhitespace).length ≤
      (s.dropWhile Char.isWhitespace).reverse.length :=
    (List.dropWhile_sublist Char.isWhitespace).length_le
  simp only [pyStrip, List.length_reverse] at *
  omega

theorem goodCur_strip {paras : List PyStr} {cur : PyStr}
    (h : GoodCur paras cur) : GoodChunk paras (pyStrip cur) := by
  rcases h with h | h | ⟨p, hp, rfl⟩ | ⟨s, p, hp, rfl⟩
  · subst h
    exact Or.inl (by simp [pyStrip])
  · exact Or.inl (le_trans (pyStrip_length_le cur) h)
  · exact Or.inr (Or.inl ⟨cur, hp, rfl⟩)
  · exact Or.inr (Or.inr ⟨s, p, hp, rfl⟩)

theorem chunkStep_preserves {paras : List PyStr} {chunks : List PyStr}
    {cur : PyStr} {p : PyStr}
    (hchunks : ∀ c ∈ chunks, GoodChunk paras c) (hcur : GoodCur paras cur)
    (hp : p ∈ paras) :
    (∀ c ∈ (chunkStep (chunks, cur) p).1, GoodChunk paras c) ∧
      GoodCur paras (chunkStep (chunks, cur) p).2 := by
  unfold chunkStep
  by_cases hcond : TEXT_CHUNK_SIZE < cur.length + p.length ∧ cur ≠ []
  · rw [if_pos hcond]
    constructor
    · intro c hc
      rcases List.mem_append.mp hc with h | h
      · exact hchunks c h
      · rcases List.mem_singleton.mp h with rfl
        exact goodCur_strip hcur
    · exact Or.inr (Or.inr (Or.inr ⟨overlapSeed cur, p, hp, rfl⟩))
  · rw [if_neg hcond]
    refine ⟨hchunks, ?_⟩
    by_cases hnil : cur = []
    · rw [if_pos hnil]
      exact Or.inr (Or.inr (Or.inl ⟨p, hp, rfl⟩))
    · rw [if_neg hnil]
      have hlen : cur.length + p.length ≤ TEXT_CHUNK_SIZE := by
        by_contra hgt
        exact hcond ⟨by omega, hnil⟩
      refine Or.inr (Or.inl ?_)
      simp only [List.length_append, sep2, List.length_cons, List.length_nil]
      omega

theorem chunkFold_preserves {paras : List PyStr} (ps : List PyStr)
    (hps : ∀ p ∈ ps, p ∈ paras) :
    ∀ acc : List PyStr × PyStr,
      (∀ c ∈ acc.1, GoodChunk paras c) → GoodCur paras acc.2 →
        (∀ c ∈ (ps.foldl chunkStep acc).1, GoodChunk paras c) ∧
          GoodCur paras (ps.foldl chunkStep acc).2 := by
  induction ps with
  | nil => intro acc h1 h2; exact ⟨h1, h2⟩
  | cons p ps ih =>
      intro acc h1 h2
      have hp : p ∈ paras := hps p (List.mem_cons_self p ps)
      have hstep : (∀ c ∈ (chunkStep (acc.1, acc.2) p).1, GoodChunk paras c) ∧
          GoodCur paras (chunkStep (acc.1, acc.2) p).2 :=
        chunkStep_preserves h1 h2 hp
      simpa using ih (fun q hq => hps q (List.mem_cons_of_mem p hq))
        (chunkStep (acc.1, acc.2) p) hstep.1 hstep.2

/-- Claim C3 (amended): every chunk produced by chunk_text either has
length at most TEXT_CHUNK_SIZE + 2 (the two extra characters are the
paragraph separator, which the size check does not count), or is the
stripped form of a single oversized paragraph, or is the stripped form
of an overlap seed joined to a single paragraph. -/
theorem C3_chunk_size_bound (text c : PyStr) (hc : c ∈ chunk_text text) :
    GoodChunk (paragraphsOf text) c := by
  unfold chunk_text at hc
  by_cases hnil : text = []
  · simp [hnil] at hc
  · simp only [hnil, if_neg, not_false_iff] at hc
    have hfold : (∀ c ∈ ((paragraphsOf text).foldl chunkStep ([], [])).1,
          GoodChunk (paragraphsOf text) c) ∧
        GoodCur (paragraphsOf text)
          ((paragraphsOf text).foldl chunkStep ([], [])).2 :=
      chunkFold_preserves (paragraphsOf text) (fun p hp => hp) ([], [])
        (by intro c hc; simp at hc) (Or.inl rfl)
    by_cases hcur : ((paragraphsOf text).foldl chunkStep ([], [])).2 = []
    · simp only [hcur, if_pos] at hc
      exact hfold.1 c hc
    · simp only [hcur, if_neg, not_false_iff] at hc
      rcases List.mem_append.mp hc with h | h
      · exact hfold.1 c h
      · rcases List.mem_singleton.mp h with rfl
        exact goodCur_strip hfold.2

/-- Claim C3 counterexample: on two 500-character paragraphs, the size
check len(current_chunk) + len(paragraph) > 1000 does not fire (500 +
500 = 1000), so both paragraphs are merged into one 1002-character
chunk.  That chunk exceeds the configured maximum of 1000 characters
and is not a single paragraph, refuting the claim as stated. -/
theorem C3_counterexample :
    ∃ c ∈ chunk_text exC3, TEXT_CHUNK_SIZE < c.length ∧
      ∀ p ∈ paragraphsOf exC3, c ≠ p := by decide

/-- Claim C3 witness: the amended bound instantiated on a concrete
two-character text. -/
theorem C3_chunk_size_bound_witness :
    ['h', 'i'] ∈ chunk_text ['h', 'i'] ∧
      GoodChunk (paragraphsOf ['h', 'i']) ['h', 'i'] :=
  ⟨by decide, C3_chunk_size_bound ['h', 'i'] ['h', 'i'] (by decide)⟩

theorem mem_insertSorted (le : α → α → Bool) (x a : α) (l : List α) :
    a ∈ insertSorted le x l ↔ a = x ∨ a ∈ l := by
  induction l with
  | nil => simp [insertSorted]
  | cons y ys ih =>
      by_cases h : le x y
      · simp [insertSorted, h]
      · simp only [insertSorted, h, if_neg, Bool.false_eq_true, not_false_iff,
          List.mem_cons, ih]
        tauto

theorem perm_insertSorted (le : α → α → Bool) (x : α) (l : List α) :
    List.Perm (insertSorted le x l) (x :: l) := by
  induction l with
  | nil => rfl
  | cons y ys ih =>
      by_cases h : le x y
      · rw [insertSorted, if_pos h]
      · rw [insertSorted, if_neg h]
        exact (ih.cons y).trans (List.Perm.swap x y ys)

theorem pySortBy_perm (le : α → α → Bool) (l : List α) :
    List.Perm (pySortBy le l) l := by
  induction l with
  | nil => rfl
  | cons x xs ih =>
      exact (perm_insertSorted le x (pySortBy le xs)).trans (ih.cons x)

theorem pairwise_insertSorted {le : α → α → Bool} (htot : IsTotalBle le)
    (htr : IsTransBle le) (x : α) {l : List α}
    (hl : l.Pairwise fun a b => le a b = true) :
    (insertSorted le x l).Pairwise fun a b => le a b = true := by
  induction l with
  | nil => simp [insertSorted]
  | cons y ys ih =>
      rw [List.pairwise_cons] at hl
      by_cases h : le x y
      · rw [insertSorted, if_pos h]
        refine List.Pairwise.cons ?_ (List.Pairwise.cons hl.1 hl.2)
        intro b hb
        rcases List.mem_cons.mp hb with rfl | hb
        · exact h
        · exact htr x y b h (hl.1 b hb)
      · rw [insertSorted, if_neg h]
        refine List.Pairwise.cons ?_ (ih hl.2)
        intro b hb
        rcases (mem_insertSorted le x b ys).mp hb with rfl | hb
        · rcases htot y b with hyx | hxy
          · exact hyx
          · exact absurd hxy h
        · exact hl.1 b hb

theorem pairwise_pySortBy {le : α → α → Bool} (htot : IsTotalBle le)
    (htr : IsTransBle le) (l : List α) :
    (pySortBy le l).Pairwise fun a b => le a b = true := by
  induction l with
  | nil => exact List.Pairwise.nil
  | cons x xs ih => exact pairwise_insertSorted htot htr x ih

theorem insertSorted_map (f : α → β) (leb : β → β → Bool) (lea : α → α → Bool)
    (hcomm : ∀ a b, leb (f a) (f b) = lea a b) (x : α) (l : List α) :
    insertSorted leb (f x) (l.map f) = (insertSorted lea x l).map f := by
  induction l with
  | nil => rfl
  | cons y ys ih =>
      rw [List.map_cons, insertSorted, insertSorted, hcomm]
      by_cases h : lea x y
      · rw [if_pos h, if_pos h, List.map_cons, List.map_cons]
      · rw [if_neg h, if_neg h, List.map_cons, ih]

theorem pySortBy_map (f : α → β) (leb : β → β → Bool) (lea : α → α → Bool)
    (hcomm : ∀ a b, leb (f a) (f b) = lea a b) (l : List α) :
    pySortBy leb (l.map f) = (pySortBy lea l).map f := by
  induction l with
  | nil => rfl
  | cons x xs ih => rw [List.map_cons, pySortBy, pySortBy, ih,
      insertSorted_map f leb lea hcomm]

theorem keywordMatches_nil (content : PyStr) : keywordMatches [] content = 0 :=
  rfl

theorem boostResult_nil (r : SearchResult) : boostResult [] r = r := by
  rw [boostResult, if_neg]
  simp [keywordMatches_nil]

theorem hybrid_search_mem {query : PyStr} {rs : List SearchResult}
    {r' : SearchResult} (h : r' ∈ hybrid_search query rs) :
    ∃ r ∈ rs, r' = boostResult (pyKeywords query) r := by
  unfold hybrid_search at h
  by_cases hk : pyKeywords query = []
  · rw [if_pos hk] at h
    exact ⟨r', h, by rw [hk, boostResult_nil]⟩
  · rw [if_neg hk] at h
    have hperm := (pySortBy_perm confDescLE
      (rs.map (boostResult (pyKeywords query)))).mem_iff.mp h
    rcases List.mem_map.mp hperm with ⟨r, hr, rfl⟩
    exact ⟨r, hr, rfl⟩

/-- Claim C1 (amended): after hybrid ranking, every result is one of the
input results with its confidence adjusted by the keyword boost, where
match_count is the number of query keywords (not the number of substring
occurrences) that occur at least once as a substring of the case-folded
content; results with zero matching keywords keep their confidence
unchanged. -/
theorem C1_keyword_boost (query : PyStr) (rs : List SearchResult)
    (r' : SearchResult) (h : r' ∈ hybrid_search query rs) :
    ∃ r ∈ rs, r'.chunk_id = r.chunk_id ∧ r'.content = r.content ∧
      r'.confidence =
        if 0 < keywordMatches (pyKeywords query) (pyLower r.content) then
          min (99/100) (r.confidence + min (2/10)
            (5/100 * (keywordMatches (pyKeywords query) (pyLower r.content) : ℚ)))
        else r.confidence := by
  obtain ⟨r, hr, rfl⟩ := hybrid_search_mem h
  refine ⟨r, hr, ?_, ?_, ?_⟩ <;>
    · unfold boostResult
      by_cases hm : 0 < keywordMatches (pyKeywords query) (pyLower r.content) <;>
        simp [hm]

theorem hybrid_wolf :
    hybrid_search "wolf".data [exResC1] =
      [boostResult (pyKeywords "wolf".data) exResC1] := by
  have hne : pyKeywords "wolf".data ≠ [] := by decide
  unfold hybrid_search
  rw [if_neg hne]
  rfl

/-- Claim C1 counterexample: for the query "wolf" and a chunk whose
content is "wolf wolf wolf" at confidence 0.5, the code counts one
matching keyword and yields confidence 0.55, while the claimed formula
counts three substring occurrences and demands 0.65. -/
theorem C1_counterexample :
    (hybrid_search "wolf".data [exResC1]).map SearchResult.confidence
        = [11/20] ∧
      min (99/100) (exResC1.confidence + min (2/10)
        (5/100 * (specC1MatchCount "wolf".data exResC1.content : ℚ))) = 13/20 ∧
      (11/20 : ℚ) ≠ 13/20 := by
  have hm : keywordMatches (pyKeywords "wolf".data) (pyLower exResC1.content)
      = 1 := by decide
  have hocc : specC1MatchCount "wolf".data exResC1.content = 3 := by decide
  refine ⟨?_, ?_, by norm_num⟩
  · rw [hybrid_wolf]
    unfold boostResult
    rw [if_pos (by rw [hm]; norm_num)]
    simp only [List.map_cons, List.map_nil, hm]
    norm_num [exResC1, min_def]
  · rw [hocc]
    norm_num [exResC1, min_def]

/-- Claim C1 witness: the amended per-result formula instantiated on the
query "wolf" and a single concrete result. -/
theorem C1_keyword_boost_witness :
    ∃ r ∈ [exResC1],
      (boostResult (pyKeywords "wolf".data) exResC1).chunk_id = r.chunk_id ∧
      (boostResult (pyKeywords "wolf".data) exResC1).content = r.content ∧
      (boostResult (pyKeywords "wolf".data) exResC1).confidence =
        if 0 < keywordMatches (pyKeywords "wolf".data) (pyLower r.content) then
          min (99/100) (r.confidence + min (2/10)
            (5/100 *
              (keywordMatches (pyKeywords "wolf".data) (pyLower r.content) : ℚ)))
        else r.confidence :=
  C1_keyword_boost "wolf".data [exResC1]
    (boostResult (pyKeywords "wolf".data) exResC1)
    (by rw [hybrid_wolf]; exact List.mem_singleton_self _)

theorem hybrid_zzzz : hybrid_search "zzzz".data [exResC2] = [exResC2] := by
  have hne : pyKeywords "zzzz".data ≠ [] := by decide
  have hm : keywordMatches (pyKeywords "zzzz".data) (pyLower exResC2.content)
      = 0 := by decide
  unfold hybrid_search
  rw [if_neg hne]
  show insertSorted confDescLE (boostResult (pyKeywords "zzzz".data) exResC2) []
      = [exResC2]
  unfold boostResult
  rw [if_neg (by rw [hm]; norm_num)]
  rfl

/-- Claim C2 counterexample: at vector distance 0 the derived confidence
is 1.0; for a query whose keyword does not occur in the content, hybrid
ranking leaves that confidence at 1.0, which exceeds 0.99 — so the
claimed upper bound of 0.99 on post-ranking confidence is false. -/
theorem C2_counterexample :
    exResC2.confidence = confidence_of_distance 0 ∧
      hybrid_search "zzzz".data [exResC2] = [exResC2] ∧
      ¬ exResC2.confidence ≤ 99/100 := by
  refine ⟨?_, hybrid_zzzz, ?_⟩
  · show (1 : ℚ) = confidence_of_distance 0
    unfold confidence_of_distance
    norm_num [min_def]
  · show ¬ (1 : ℚ) ≤ 99/100
    norm_num

/-- Claim C2 (amended): for results whose confidence was derived from a
non-negative vector distance as 1 - min(distance/2, 0.95), every
post-ranking confidence lies between min(original, 0.99) and
max(original, 0.99), hence in [0.05, 1]; the bound of the claim as
stated holds whenever the original confidence is at most 0.99. -/
theorem C2_confidence_bounds (query : PyStr) (rs : List SearchResult)
    (hconf : ∀ r ∈ rs, ∃ d : ℚ, 0 ≤ d ∧ r.confidence = confidence_of_distance d)
    (r' : SearchResult) (h : r' ∈ hybrid_search query rs) :
    ∃ r ∈ rs, r'.chunk_id = r.chunk_id ∧
      min r.confidence (99/100) ≤ r'.confidence ∧
      r'.confidence ≤ max r.confidence (99/100) ∧
      1/20 ≤ r'.confidence ∧ r'.confidence ≤ 1 := by
  obtain ⟨r, hr, rfl⟩ := hybrid_search_mem h
  obtain ⟨d, hd, hcd⟩ := hconf r hr
  have hmin1 : min (d/2) (95/100 : ℚ) ≤ 95/100 := min_le_right _ _
  have hmin0 : (0 : ℚ) ≤ min (d/2) (95/100) := le_min (by linarith) (by norm_num)
  have hcr_lo : (1/20 : ℚ) ≤ r.confidence := by
    rw [hcd]; unfold confidence_of_distance; linarith
  have hcr_hi : r.confidence ≤ 1 := by
    rw [hcd]; unfold confidence_of_distance; linarith
  refine ⟨r, hr, ?_⟩
  unfold boostResult
  by_cases hm : 0 < keywordMatches (pyKeywords query) (pyLower r.content)
  · rw [if_pos hm]
    have hm0 : (0 : ℚ) ≤
        (keywordMatches (pyKeywords query) (pyLower r.content) : ℚ) :=
      Nat.cast_nonneg _
    have hb0 : (0 : ℚ) ≤ min (2/10)
        (5/100 * (keywordMatches (pyKeywords query) (pyLower r.content) : ℚ)) :=
      le_min (by norm_num) (by linarith)
    refine ⟨rfl, ?_, ?_, ?_, ?_⟩
    · exact le_min (min_le_right _ _) ((min_le_left _ _).trans (by linarith))
    · exact (min_le_left _ _).trans (le_max_right _ _)
    · exact le_min (by norm_num) (by linarith)
    · exact (min_le_left _ _).trans (by norm_num)
  · rw [if_neg hm]
    exact ⟨rfl, min_le_left _ _, le_max_left _ _, hcr_lo, hcr_hi⟩

/-- Claim C2 witness: the amended bounds instantiated on the query
"zzzz" and a single result of confidence 1 (distance 0). -/
theorem C2_confidence_bounds_witness :
    ∃ r ∈ [exResC2], exResC2.chunk_id = r.chunk_id ∧
      min r.confidence (99/100) ≤ exResC2.confidence ∧
      exResC2.confidence ≤ max r.confidence (99/100) ∧
      1/20 ≤ exResC2.confidence ∧ exResC2.confidence ≤ 1 :=
  C2_confidence_bounds "zzzz".data [exResC2]
    (by
      intro r hr
      rcases List.mem_singleton.mp hr with rfl
      refine ⟨0, le_refl 0, ?_⟩
      show (1 : ℚ) = confidence_of_distance 0
      unfold confidence_of_distance
      norm_num [min_def])
    exResC2 (by rw [hybrid_zzzz]; exact List.mem_singleton_self _)

theorem wordRunsAux_wordChar :
    ∀ s acc : PyStr, (∀ c ∈ acc, isWordChar c = true) →
      ∀ run ∈ wordRunsAux s acc, ∀ c ∈ run, isWordChar c = true := by
  intro s
  induction s with
  | nil =>
      intro acc hacc run hrun c hc
      by_cases h : acc = []
      · rw [wordRunsAux, if_pos h] at hrun
        simp at hrun
      · rw [wordRunsAux, if_neg h] at hrun
        rcases List.mem_singleton.mp hrun with rfl
        exact hacc c (List.mem_reverse.mp hc)
  | cons d rest ih =>
      intro acc hacc run hrun c hc
      rw [wordRunsAux] at hrun
      by_cases hw : isWordChar d
      · rw [if_pos hw] at hrun
        refine ih (d :: acc) ?_ run hrun c hc
        intro e he
        rcases List.mem_cons.mp he with rfl | he
        · exact hw
        · exact hacc e he
      · rw [if_neg hw] at hrun
        by_cases ha : acc = []
        · rw [if_pos ha] at hrun
          exact ih [] (by simp) run hrun c hc
        · rw [if_neg ha] at hrun
          rcases List.mem_cons.mp hrun with rfl | hrun
          · exact hacc c (List.mem_reverse.mp hc)
          · exact ih [] (by simp) run hrun c hc

/-- Claim C8 (amended): the hybrid ranker's keywords are the maximal
word-character runs (letters, digits, underscore — not
whitespace-delimited tokens) of length at least 4 of the case-folded
query; every extracted keyword indeed has length at least 4 and consists
of word characters only, and a query yielding zero keywords passes the
result list through unmodified. -/
theorem C8_keywords (query : PyStr) (rs : List SearchResult) :
    (pyKeywords query = [] → hybrid_search query rs = rs) ∧
      ∀ k ∈ pyKeywords query, 4 ≤ k.length ∧ ∀ c ∈ k, isWordChar c = true := by
  constructor
  · intro h
    unfold hybrid_search
    rw [if_pos h]
  · intro k hk
    refine ⟨by simpa using (List.mem_filter.mp hk).2, ?_⟩
    exact wordRunsAux_wordChar (pyLower query) [] (by simp) k
      (List.mem_filter.mp hk).1

/-- Claim C8 counterexample: on the query "e-mail", the code's regex
extracts the word run "mail", not the whitespace-delimited token
"e-mail" the claim describes. -/
theorem C8_counterexample :
    pyKeywords "e-mail".data = ["mail".data] ∧
      specC8Keywords "e-mail".data = ["e-mail".data] ∧
      ("mail".data : PyStr) ≠ "e-mail".data := by decide

/-- Claim C8 witness: the pass-through branch instantiated on the query
"or", which yields no keywords of length 4. -/
theorem C8_keywords_witness :
    hybrid_search ['o', 'r'] [exResC2] = [exResC2] ∧
      ∀ k ∈ pyKeywords ['o', 'r'], 4 ≤ k.length ∧
        ∀ c ∈ k, isWordChar c = true :=
  ⟨(C8_keywords ['o', 'r'] [exResC2]).1 (by decide),
    (C8_keywords ['o', 'r'] [exResC2]).2⟩

theorem charsLE_cons_iff (x y : Char) (xs ys : PyStr) :
    charsLE (x :: xs) (y :: ys) = true ↔
      x.toNat < y.toNat ∨ (x.toNat = y.toNat ∧ charsLE xs ys = true) := by
  rw [charsLE]
  by_cases h1 : x.toNat < y.toNat
  · rw [if_pos h1]
    simp [h1]
  · rw [if_neg h1]
    by_cases h2 : y.toNat < x.toNat
    · rw [if_pos h2]
      constructor
      · intro h; exact absurd h (by simp)
      · rintro (h | ⟨h, _⟩) <;> omega
    · rw [if_neg h2]
      have hx : x.toNat = y.toNat := by omega
      simp [hx, h1]

theorem charsLE_total : ∀ a b : PyStr, charsLE a b = true ∨ charsLE b a = true := by
  intro a
  induction a with
  | nil => intro b; left; rfl
  | cons x xs ih =>
      intro b
      cases b with
      | nil => right; rfl
      | cons y ys =>
          rw [charsLE_cons_iff, charsLE_cons_iff]
          rcases Nat.lt_trichotomy x.toNat y.toNat with h | h | h
          · exact Or.inl (Or.inl h)
          · rcases ih ys with hc | hc
            · exact Or.inl (Or.inr ⟨h, hc⟩)
            · exact Or.inr (Or.inr ⟨h.symm, hc⟩)
          · exact Or.inr (Or.inl h)

theorem charsLE_trans : ∀ a b c : PyStr,
    charsLE a b = true → charsLE b c = true → charsLE a c = true := by
  intro a
  induction a with
  | nil => intro b c _ _; rfl
  | cons x xs ih =>
      intro b c hab hbc
      cases b with
      | nil => simp [charsLE] at hab
      | cons y ys =>
          cases c with
          | nil => simp [charsLE] at hbc
          | cons z zs =>
              rw [charsLE_cons_iff] at hab hbc ⊢
              rcases hab with h | ⟨he, hr⟩ <;> rcases hbc with h2 | ⟨he2, hr2⟩
              · left; omega
              · left; omega
              · left; omega
              · exact Or.inr ⟨by omega, ih ys zs hr hr2⟩

theorem groupKeyLE_iff (a b : SearchResult) :
    groupKeyLE a b = true ↔
      pageKey a < pageKey b ∨
        (pageKey a = pageKey b ∧ charsLE a.chunk_id b.chunk_id = true) := by
  rw [groupKeyLE]
  by_cases h1 : pageKey a < pageKey b
  · rw [if_pos h1]
    simp [h1]
  · rw [if_neg h1]
    by_cases h2 : pageKey b < pageKey a
    · rw [if_pos h2]
      constructor
      · intro h; exact absurd h (by simp)
      · rintro (h | ⟨h, _⟩) <;> omega
    · rw [if_neg h2]
      have hx : pageKey a = pageKey b := by omega
      simp [hx, h1]

theorem groupKeyLE_total : IsTotalBle groupKeyLE := by
  intro a b
  rw [groupKeyLE_iff, groupKeyLE_iff]
  rcases lt_trichotomy (pageKey a) (pageKey b) with h | h | h
  · exact Or.inl (Or.inl h)
  · rcases charsLE_total a.chunk_id b.chunk_id with hc | hc
    · exact Or.inl (Or.inr ⟨h, hc⟩)
    · exact Or.inr (Or.inr ⟨h.symm, hc⟩)
  · exact Or.inr (Or.inl h)

theorem groupKeyLE_trans : IsTransBle groupKeyLE := by
  intro a b c hab hbc
  rw [groupKeyLE_iff] at hab hbc ⊢
  rcases hab with h | ⟨he, hr⟩ <;> rcases hbc with h2 | ⟨he2, hr2⟩
  · left; omega
  · left; omega
  · left; omega
  · exact Or.inr ⟨by omega, charsLE_trans _ _ _ hr hr2⟩

/-- Claim C5 (amended): within each document group of the assembled
context, results are sorted ascending by the key
(page_number or 9999, chunk_id) — the missing-page sentinel is 9999, not
+infinity — and in particular, whenever a later chunk of a group has
page number 1, no earlier chunk of that group has page number 3, so
pages 3 and 1 of one document always render as page 1 before page 3. -/
theorem C5_group_order (results : List SearchResult)
    (kg : PyStr × List SearchResult) (hkg : kg ∈ contextGroups results) :
    kg.2.Pairwise (fun a b => groupKeyLE a b = true) ∧
      ∀ i j : Fin kg.2.length, (i : ℕ) < (j : ℕ) →
        (kg.2.get j).page_number = some 1 →
        (kg.2.get i).page_number ≠ some 3 := by
  rcases List.mem_map.mp hkg with ⟨kg0, hkg0, rfl⟩
  have hpw := pairwise_pySortBy groupKeyLE_total groupKeyLE_trans kg0.2
  refine ⟨hpw, ?_⟩
  intro i j hij hj hi3
  have hle := List.pairwise_iff_get.mp hpw i j hij
  rw [groupKeyLE_iff] at hle
  have h1 : pageKey ((pySortBy groupKeyLE kg0.2).get j) = 1 := by
    rw [pageKey, hj]
    norm_num
  have h3 : pageKey ((pySortBy groupKeyLE kg0.2).get i) = 3 := by
    rw [pageKey, hi3]
    norm_num
  rcases hle with h | ⟨h, _⟩ <;> omega

/-- Claim C5 counterexample: two chunks of one document, one at page
10000 with chunk id "a" and one with no page number and chunk id "b".
The code's 9999 sentinel sorts the pageless chunk first, so the
assembled group is not ordered by the claimed key
(page_number or +infinity, chunk_id), under which pageless chunks sort
last. -/
theorem C5_counterexample :
    contextGroups [exResA, exResB] = [("d".data, [exResB, exResA])] ∧
      ¬ List.Pairwise (fun a b => specC5KeyLE a b = true)
        [exResB, exResA] := by decide

/-- Claim C5 witness: the amended ordering instantiated on a concrete
two-chunk result list. -/
theorem C5_group_order_witness :
    ([exResB, exResA] : List SearchResult).Pairwise
        (fun a b => groupKeyLE a b = true) ∧
      ∀ i j : Fin ([exResB, exResA] : List SearchResult).length,
        (i : ℕ) < (j : ℕ) →
        (([exResB, exResA] : List SearchResult).get j).page_number = some 1 →
        (([exResB, exResA] : List SearchResult).get i).page_number ≠ some 3 :=
  C5_group_order [exResA, exResB] ("d".data, [exResB, exResA]) (by decide)

theorem pageKey_norm (r : SearchResult) : pageKey (normPage0 r) = pageKey r := by
  unfold normPage0
  by_cases h : r.page_number = some 0
  · rw [if_pos h]
    rw [pageKey, pageKey, h]
    norm_num
  · rw [if_neg h]

theorem groupKeyLE_norm (a b : SearchResult) :
    groupKeyLE (normPage0 a) (normPage0 b) = groupKeyLE a b := by
  have hca : (normPage0 a).chunk_id = a.chunk_id := by
    unfold normPage0; split <;> rfl
  have hcb : (normPage0 b).chunk_id = b.chunk_id := by
    unfold normPage0; split <;> rfl
  rw [groupKeyLE, groupKeyLE, pageKey_norm, pageKey_norm, hca, hcb]

theorem renderBlockOpt_norm (r : SearchResult) :
    renderBlockOpt (normPage0 r) = renderBlockOpt r := by
  unfold normPage0
  by_cases h : r.page_number = some 0
  · rw [if_pos h]
    rw [renderBlockOpt, renderBlockOpt, h]
    norm_num [pageInfo]
  · rw [if_neg h]

theorem docKeyOf_norm (r : SearchResult) : docKeyOf (normPage0 r) = docKeyOf r := by
  unfold normPage0
  split <;> rfl

theorem insertGroup_norm (k : PyStr) (r : SearchResult) :
    ∀ gs : List (PyStr × List SearchResult),
      insertGroup k (normPage0 r)
          (gs.map (fun kg => (kg.1, kg.2.map normPage0))) =
        (insertGroup k r gs).map (fun kg => (kg.1, kg.2.map normPage0)) := by
  intro gs
  induction gs with
  | nil => rfl
  | cons kg rest ih =>
      rcases kg with ⟨k0, g⟩
      rw [List.map_cons]
      by_cases h : k0 = k
      · rw [insertGroup, insertGroup, if_pos h, if_pos h, List.map_cons]
        simp
      · rw [insertGroup, insertGroup, if_neg h, if_neg h, List.map_cons, ih]

theorem group_results_norm (results : List SearchResult) :
    group_results_by_document (results.map normPage0) =
      (group_results_by_document results).map
        (fun kg => (kg.1, kg.2.map normPage0)) := by
  unfold group_results_by_document
  have main : ∀ rs : List SearchResult, ∀ acc : List (PyStr × List SearchResult),
      (rs.map normPage0).foldl (fun acc r =>
          match docKeyOf r with
          | none => acc
          | some k => insertGroup k r acc)
        (acc.map (fun kg => (kg.1, kg.2.map normPage0))) =
      (rs.foldl (fun acc r =>
          match docKeyOf r with
          | none => acc
          | some k => insertGroup k r acc) acc).map
        (fun kg => (kg.1, kg.2.map normPage0)) := by
    intro rs
    induction rs with
    | nil => intro acc; rfl
    | cons r rest ih =>
        intro acc
        rw [List.map_cons, List.foldl_cons, List.foldl_cons]
        have hstep :
            (match docKeyOf (normPage0 r) with
              | none => acc.map
                  (fun kg : PyStr × List SearchResult =>
                    (kg.1, kg.2.map normPage0))
              | some k => insertGroup k (normPage0 r)
                  (acc.map (fun kg : PyStr × List SearchResult =>
                    (kg.1, kg.2.map normPage0)))) =
            ((match docKeyOf r with
              | none => acc
              | some k => insertGroup k r acc).map
                (fun kg : PyStr × List SearchResult =>
                  (kg.1, kg.2.map normPage0))) := by
          rw [docKeyOf_norm]
          rcases hdk : docKeyOf r with _ | k
          · rfl
          · exact insertGroup_norm k r acc
        rw [hstep, ih]
  simpa using main results []

theorem docGroupParts_norm (kg : PyStr × List SearchResult)
    (acc : List PyStr) :
    docGroupParts (kg.1, kg.2.map normPage0) acc = docGroupParts kg acc := by
  unfold docGroupParts
  have hname : ((kg.2.map normPage0).head?.map fun r => r.document_name) =
      (kg.2.head?.map fun r => r.document_name) := by
    cases kg.2 with
    | nil => rfl
    | cons r rest =>
        have hdn : (normPage0 r).document_name = r.document_name := by
          unfold normPage0; split <;> rfl
        simp [hdn]
  have hsort : pySortBy groupKeyLE (kg.2.map normPage0) =
      (pySortBy groupKeyLE kg.2).map normPage0 :=
    pySortBy_map normPage0 groupKeyLE groupKeyLE groupKeyLE_norm kg.2
  have hblocks : ((pySortBy groupKeyLE kg.2).map normPage0).filterMap
      renderBlockOpt = (pySortBy groupKeyLE kg.2).filterMap renderBlockOpt := by
    rw [List.filterMap_map]
    congr 1
    funext r
    exact renderBlockOpt_norm r
  rw [hname, hsort, hblocks]

/-- Claim C10: a chunk whose page_number is 0 is treated exactly as a
chunk with no page number: the assembled context is unchanged when page 0
is replaced by an absent page, the chunk's group sort key is the
missing-page sentinel 9999, and its rendered block carries no page
annotation. -/
theorem C10_page_zero (results : List SearchResult) (query : PyStr) :
    build_context_for_llm (results.map normPage0) query =
        build_context_for_llm results query ∧
      ∀ r : SearchResult, r.page_number = some 0 →
        pageKey r = 9999 ∧ pageInfo r.page_number = [] := by
  constructor
  · unfold build_context_for_llm
    by_cases h : results = []
    · rw [h]
      rfl
    · rw [if_neg h, if_neg (by simpa using h), group_results_norm]
      have : ((group_results_by_document results).map
            (fun kg => (kg.1, kg.2.map normPage0))).foldr docGroupParts [] =
          (group_results_by_document results).foldr docGroupParts [] := by
        induction group_results_by_document results with
        | nil => rfl
        | cons kg rest ih =>
            rw [List.map_cons, List.foldr_cons, List.foldr_cons, ih]
            exact docGroupParts_norm kg _
      rw [this]
  · intro r hr
    constructor
    · rw [pageKey, hr]
      norm_num
    · rw [hr]
      rfl

/-- Claim C10 witness: the page-0 normalization instantiated on a
concrete one-element result list with page number 0. -/
theorem C10_page_zero_witness :
    build_context_for_llm ([exResC10].map normPage0) "q".data =
        build_context_for_llm [exResC10] "q".data ∧
      pageKey exResC10 = 9999 ∧ pageInfo exResC10.page_number = [] :=
  ⟨(C10_page_zero [exResC10] "q".data).1,
    (C10_page_zero [exResC10] "q".data).2 exResC10 rfl⟩

theorem foldl_citeStep_unres (ctx : List SearchResult) :
    ∀ ms : List Nat, (∀ m ∈ ms, resolveMarker ctx m = none) →
      ∀ init : List Citation, ms.foldl (citeStep ctx) init = init := by
  intro ms
  induction ms with
  | nil => intro _ init; rfl
  | cons m ms ih =>
      intro h init
      rw [List.foldl_cons]
      have hstep : citeStep ctx init m = init := by
        rw [citeStep, h m (List.mem_cons_self m ms)]
      rw [hstep]
      exact ih (fun x hx => h x (List.mem_cons_of_mem m hx)) init

/-- Claim C4: if the generated answer contains zero resolvable [DOC_i]
markers and the result list is non-empty, extract_citations produces
exactly one citation, built from the first (top-ranked) result. -/
theorem C4_fallback_citation (response : PyStr) (top : SearchResult)
    (rest : List SearchResult)
    (h : ∀ m ∈ findMarkers response, resolveMarker (top :: rest) m = none) :
    extract_citations response (top :: rest) = [mkCitation top] := by
  unfold extract_citations
  rw [citationsFromMarkers, foldl_citeStep_unres (top :: rest)
    (findMarkers response) h []]

/-- Claim C4 witness: the fallback instantiated on a marker-free answer
and a one-element context. -/
theorem C4_fallback_citation_witness :
    extract_citations "The answer.".data [exResC2] = [mkCitation exResC2] :=
  C4_fallback_citation "The answer.".data exResC2 [] (by decide)

theorem resolveMarker_eq_none (ctx : List SearchResult) (n : Nat)
    (h : ¬(1 ≤ n ∧ n ≤ ctx.length)) : resolveMarker ctx n = none := by
  unfold resolveMarker
  by_cases h1 : 1 ≤ n
  · rw [if_pos h1]
    apply List.get?_eq_none.mpr
    omega
  · rw [if_neg h1]

theorem foldl_citeStep_filter (ctx : List SearchResult) :
    ∀ (ms : List Nat) (init : List Citation),
      ms.foldl (citeStep ctx) init =
        (ms.filter fun n => 1 ≤ n ∧ n ≤ ctx.length).foldl (citeStep ctx)
          init := by
  intro ms
  induction ms with
  | nil => intro init; rfl
  | cons m ms ih =>
      intro init
      by_cases h : 1 ≤ m ∧ m ≤ ctx.length
      · rw [List.filter_cons_of_pos (by simpa using h), List.foldl_cons,
          List.foldl_cons, ih]
      · rw [List.filter_cons_of_neg (by simpa using h), List.foldl_cons]
        have hstep : citeStep ctx init m = init := by
          rw [citeStep, resolveMarker_eq_none ctx m h]
        rw [hstep, ih]

/-- Claim C6: a marker whose index is out of range for the result list
contributes no citation and raises no error — the citations of a marker
list equal the citations of its in-range sublist; in particular
[DOC_99], whose digits the scanner reads as 99, yields zero citations
from the marker loop against any 3-item list. -/
theorem C6_invalid_markers_discarded (response : PyStr)
    (ctx : List SearchResult) :
    citationsFromMarkers ctx (findMarkers response) =
        citationsFromMarkers ctx ((findMarkers response).filter
          fun n => 1 ≤ n ∧ n ≤ ctx.length) ∧
      findMarkers "See [DOC_99].".data = [99] ∧
      ∀ a b c : SearchResult, citationsFromMarkers [a, b, c] [99] = [] := by
  refine ⟨?_, by decide, ?_⟩
  · exact foldl_citeStep_filter ctx (findMarkers response) []
  · intro a b c
    rfl

/-- Claim C9: for an answer whose markers are exactly [DOC_1] and
[DOC_3] in that order, against a 5-item result list whose items at
positions 1 and 3 differ on the (document_id, text) dedup key, exactly
two citations are produced, in first-seen order, built from the items at
index 0 and index 2. -/
theorem C9_citation_roundtrip (response : PyStr) (a b c d e : SearchResult)
    (hm : findMarkers response = [1, 3])
    (hk : ¬(a.document_id = c.document_id ∧ a.content = c.content)) :
    extract_citations response [a, b, c, d, e] =
      [mkCitation a, mkCitation c] := by
  have hstep : citationsFromMarkers [a, b, c, d, e] [1, 3] =
      [mkCitation a, mkCitation c] := by
    unfold citationsFromMarkers
    rw [List.foldl_cons, List.foldl_cons, List.foldl_nil]
    have e1 : citeStep [a, b, c, d, e] [] 1 = [mkCitation a] := rfl
    rw [e1]
    have e2 : citeStep [a, b, c, d, e] [mkCitation a] 3 =
        addCitation [mkCitation a] (mkCitation c) := rfl
    rw [e2]
    unfold addCitation
    rw [if_neg (by simpa [mkCitation] using hk)]
    rfl
  unfold extract_citations
  rw [hm, hstep]

/-- Claim C9 witness: the round-trip instantiated on a concrete answer
and five concrete results. -/
theorem C9_citation_roundtrip_witness :
    extract_citations "x [DOC_1] and [DOC_3].".data
        [exResC1, exResC2, exResA, exResB, exResC10] =
      [mkCitation exResC1, mkCitation exResA] :=
  C9_citation_roundtrip "x [DOC_1] and [DOC_3].".data
    exResC1 exResC2 exResA exResB exResC10 (by decide) (by decide)

/-- Claim C7 counterexample: embed_text has no exception handler, so
when the text embedding strategy fails on a non-empty text chunk,
embed_chunk propagates the error to its caller instead of degrading to
a zero vector. -/
theorem C7_counterexample :
    embed_chunk badEnv exChunkText = .error "encode failed".data := rfl

/-- Claim C7 (amended): for image chunks the dispatch never raises — a
missing file, a failing CLIP or OCR collaborator, or a failing text
strategy on the OCR fallback all degrade to a zero vector — and text
chunks with empty content yield a zero vector; but a failure of the text
embedding strategy on non-empty text or code content propagates to the
caller, since embed_text and embed_code install no handler. -/
theorem C7_embed_failures (env : EmbedEnv) (chunk : Chunk) :
    (chunk.chunk_type = "image".data → ∃ v, embed_chunk env chunk = .ok v) ∧
      (chunk.chunk_type = "image".data →
        env.fileExists (chunk.image_path.getD []) = false →
        embed_chunk env chunk = .ok (zeros 512)) ∧
      (chunk.chunk_type = "text".data → chunk.content = [] →
        embed_chunk env chunk = .ok (zeros env.textDim)) := by
  have himg : chunk.chunk_type = "image".data →
      embed_chunk env chunk = embed_image env (chunk.image_path.getD []) := by
    intro h
    unfold embed_chunk
    rw [if_neg (by rw [h]; decide), if_pos h]
  refine ⟨?_, ?_, ?_⟩
  · intro h
    rw [himg h]
    unfold embed_image
    by_cases hf : env.fileExists (chunk.image_path.getD []) = false
    · rw [if_pos hf]
      exact ⟨_, rfl⟩
    · rw [if_neg hf]
      rcases hE : (if env.hasClip then
          env.clipEmbed (chunk.image_path.getD [])
        else
          match env.ocr (chunk.image_path.getD []) with
          | .error e => .error e
          | .ok txt =>
              if txt ≠ [] then embed_text env txt
              else .ok (zeros env.textDim)) with e | v <;>
        exact ⟨_, rfl⟩
  · intro h hf
    rw [himg h]
    unfold embed_image
    rw [if_pos hf]
  · intro ht hc
    unfold embed_chunk
    rw [if_pos ht]
    unfold embed_text
    rw [if_pos hc]

/-- Claim C7 witness: the amended failure policy instantiated on the
always-failing environment with a concrete image chunk and a concrete
empty text chunk. -/
theorem C7_embed_failures_witness :
    (∃ v, embed_chunk badEnv exChunkImage = .ok v) ∧
      embed_chunk badEnv exChunkImage = .ok (zeros 512) ∧
      embed_chunk badEnv exChunkEmpty = .ok (zeros badEnv.textDim) :=
  ⟨(C7_embed_failures badEnv exChunkImage).1 rfl,
    (C7_embed_failures badEnv exChunkImage).2.1 rfl rfl,
    (C7_embed_failures badEnv exChunkEmpty).2.2 rfl rfl⟩

end RagPipeline
